import Mathlib

/-!
# Verification of the ladder proxy-exchange orchestrator (`proxychain`)

Shallow embedding of `proxychain/proxychain.go` and of the fragment of Go's
`net/url` package that the orchestrator's URL resolver relies on
(`url.Parse`, `url.QueryUnescape`, `(*url.URL).String`).

Modelling conventions:
* Go byte strings are carried as Lean `String`s; all operations treated here
  are byte-oblivious (the orchestrator never inspects body bytes), and the
  `net/url` model is byte-faithful on ASCII input.
* Go `nil` pointers become `Option`; a nil-pointer dereference is an explicit
  `GoPanic` outcome; `defer`red calls run on the panic path exactly as in Go.
* Request/response modifiers (`ReqMod`/`ResMod`, arbitrary Go closures over
  the `ProxyChain`) are modelled as an environment `Env` mapping abstract
  modifier tags to state transformers that may fail, and the upstream
  dispatch (`Client.Do` + `io.ReadAll`) as an environment-supplied outcome.
* The observable interaction with the caller's fiber context and with the
  upstream (status writes, body sends, log lines, dispatch, modifier runs)
  is recorded as a trace of `Eff` events.
-/

deriving instance DecidableEq for Except

namespace Ladder

/-! ## Character classes used by Go `net/url` -/

/-- ASCII lowercasing (Go `strings.ToLower` restricted to ASCII, the only
inputs the model is used on). -/
def toLowerAscii (s : String) : String :=
  String.mk (s.toList.map fun c =>
    if 'A' ≤ c && c ≤ 'Z' then Char.ofNat (c.toNat + 32) else c)

/-- ASCII letter, as in Go's scheme scanner. -/
def isAlphaGo (c : Char) : Bool :=
  ('a' ≤ c && c ≤ 'z') || ('A' ≤ c && c ≤ 'Z')

/-- ASCII digit. -/
def isDigitGo (c : Char) : Bool :=
  '0' ≤ c && c ≤ '9'

/-- Character allowed inside a scheme after the first letter
(Go `getScheme`: letters, digits, `+`, `-`, `.`). -/
def isSchemeChar (c : Char) : Bool :=
  isAlphaGo c || isDigitGo c || c = '+' || c = '-' || c = '.'

/-- Hex digit test (Go `ishex`). -/
def isHexGo (c : Char) : Bool :=
  isDigitGo c || ('a' ≤ c && c ≤ 'f') || ('A' ≤ c && c ≤ 'F')

/-- Hex digit value (Go `unhex`). -/
def unhexGo (c : Char) : Nat :=
  if isDigitGo c then c.toNat - '0'.toNat
  else if 'a' ≤ c && c ≤ 'f' then c.toNat - 'a'.toNat + 10
  else if 'A' ≤ c && c ≤ 'F' then c.toNat - 'A'.toNat + 10
  else 0

/-- Control byte test (Go `stringContainsCTLByte`): C0 controls and DEL. -/
def isCTL (c : Char) : Bool :=
  c.toNat < 0x20 || c.toNat = 0x7f

/-- Characters that never need escaping in a host
(Go `shouldEscape` with `encodeHost`): ASCII alphanumerics, the RFC 3986
unreserved marks, and the sub-delims Go special-cases for hosts. -/
def hostOkChar (c : Char) : Bool :=
  isAlphaGo c || isDigitGo c ||
  c = '-' || c = '_' || c = '.' || c = '~' ||
  c = '!' || c = '$' || c = '&' || c = '\'' || c = '(' || c = ')' ||
  c = '*' || c = '+' || c = ',' || c = ';' || c = '=' || c = ':' ||
  c = '[' || c = ']' || c = '<' || c = '>' || c = '"'

/-- Characters that never need escaping in a path
(Go `shouldEscape` with `encodePath`): unreserved plus
`$ & + , / : ; = @` — of the reserved set only `?` is escaped. -/
def pathOkChar (c : Char) : Bool :=
  isAlphaGo c || isDigitGo c ||
  c = '-' || c = '_' || c = '.' || c = '~' ||
  c = '$' || c = '&' || c = '+' || c = ',' || c = '/' || c = ':' ||
  c = ';' || c = '=' || c = '@'

/-- Character allowed in the userinfo part of an authority
(Go `validUserinfo`). -/
def userinfoOkChar (c : Char) : Bool :=
  isAlphaGo c || isDigitGo c ||
  c = '-' || c = '.' || c = '_' || c = ':' || c = '~' || c = '!' ||
  c = '$' || c = '&' || c = '\'' || c = '(' || c = ')' || c = '*' ||
  c = '+' || c = ',' || c = ';' || c = '=' || c = '%' || c = '@'

/-! ## List-of-characters helpers mirroring Go's `strings` usage -/

/-- Go `strings.Cut` at the first occurrence of `sep`: the part before, and
`some` rest (separator dropped) when the separator occurs. -/
def cutList (sep : Char) : List Char → List Char × Option (List Char)
  | [] => ([], none)
  | c :: rest =>
    if c = sep then ([], some rest)
    else
      let r := cutList sep rest
      (c :: r.1, r.2)

/-- Split at the first occurrence of `sep`, keeping the separator at the
head of the second component (Go's `authority[:i], authority[i:]`). -/
def breakAt (sep : Char) : List Char → List Char × List Char
  | [] => ([], [])
  | c :: rest =>
    if c = sep then ([], c :: rest)
    else
      let r := breakAt sep rest
      (c :: r.1, r.2)

/-- The part of the list after the last occurrence of `sep`
(`none` when `sep` does not occur). -/
def afterLast (sep : Char) : List Char → Option (List Char)
  | [] => none
  | c :: rest =>
    match afterLast sep rest with
    | some l => some l
    | none => if c = sep then some rest else none

/-- Does the list start with the given prefix? -/
def listStartsWith : List Char → List Char → Bool
  | _, [] => true
  | [], _ :: _ => false
  | c :: rest, d :: pre => c = d && listStartsWith rest pre

/-- Go `strings.TrimPrefix s "/"`. -/
def trimPrefixSlash (s : String) : String :=
  match s.toList with
  | '/' :: rest => String.mk rest
  | _ => s

/-! ## The `net/url` URL model

The fields the orchestrator reads or writes: `Scheme`, `Host` (decoded),
`Path` (decoded), `RawQuery` (kept raw), and `Opaque` (rootless rest for
absolute URLs whose remainder does not start with `/`). `User`, `Fragment`,
`RawPath`, `ForceQuery` and `OmitHost` are not consumed by the orchestrator
and are dropped from the model. -/

structure GoURL where
  scheme : String := ""
  opq : String := ""
  host : String := ""
  path : String := ""
  rawQuery : String := ""
deriving DecidableEq, Repr

/-- Percent-decode with query semantics
(Go `unescape(s, encodeQueryComponent)`): `+` becomes a space, `%XX`
requires two hex digits, anything else is copied. -/
def unescapeQuery : List Char → Except String (List Char)
  | [] => .ok []
  | '%' :: a :: b :: rest =>
    if isHexGo a && isHexGo b then
      match unescapeQuery rest with
      | .ok l => .ok (Char.ofNat (16 * unhexGo a + unhexGo b) :: l)
      | .error e => .error e
    else .error "invalid URL escape"
  | '%' :: _ => .error "invalid URL escape"
  | '+' :: rest =>
    match unescapeQuery rest with
    | .ok l => .ok (' ' :: l)
    | .error e => .error e
  | c :: rest =>
    match unescapeQuery rest with
    | .ok l => .ok (c :: l)
    | .error e => .error e

/-- Go `url.QueryUnescape`. -/
def queryUnescape (s : String) : Except String String :=
  match unescapeQuery s.toList with
  | .ok l => .ok (String.mk l)
  | .error e => .error e

/-- Percent-decode a path (Go `unescape(s, encodePath)`): only the validity
of `%XX` escapes is checked, every plain character is allowed. -/
def unescapePath : List Char → Except String (List Char)
  | [] => .ok []
  | '%' :: a :: b :: rest =>
    if isHexGo a && isHexGo b then
      match unescapePath rest with
      | .ok l => .ok (Char.ofNat (16 * unhexGo a + unhexGo b) :: l)
      | .error e => .error e
    else .error "invalid URL escape"
  | '%' :: _ => .error "invalid URL escape"
  | c :: rest =>
    match unescapePath rest with
    | .ok l => .ok (c :: l)
    | .error e => .error e

/-- Percent-decode a host (Go `unescape(s, encodeHost)`): `%XX` escapes of
bytes below 0x80 are rejected unless literally `%25`, and plain ASCII
characters outside the allowed host set are rejected. -/
def unescapeHost : List Char → Except String (List Char)
  | [] => .ok []
  | '%' :: a :: b :: rest =>
    if isHexGo a && isHexGo b then
      if 16 * unhexGo a + unhexGo b < 0x80 && !(a = '2' && b = '5') then
        .error "invalid URL escape"
      else
        match unescapeHost rest with
        | .ok l => .ok (Char.ofNat (16 * unhexGo a + unhexGo b) :: l)
        | .error e => .error e
    else .error "invalid URL escape"
  | '%' :: _ => .error "invalid URL escape"
  | c :: rest =>
    if c.toNat < 0x80 && !hostOkChar c then
      .error "invalid character in host name"
    else
      match unescapeHost rest with
      | .ok l => .ok (c :: l)
      | .error e => .error e

/-- Scheme scanner core (Go `getScheme` loop, positions after the first):
returns `some (scheme, rest)` when a `:` terminates a well-formed scheme,
`none` when the input has no scheme. `accRev` holds the scanned prefix. -/
def getSchemeCore : List Char → List Char → Option (List Char × List Char)
  | [], _ => none
  | c :: rest, accRev =>
    if c = ':' then some (accRev.reverse, rest)
    else if isAlphaGo c then getSchemeCore rest (c :: accRev)
    else if isSchemeChar c && accRev ≠ [] then getSchemeCore rest (c :: accRev)
    else none

/-- Go `getScheme`: splits `scheme:rest`; a leading `:` is an error; a
non-scheme shape means the whole input is the rest. -/
def getSchemeGo (s : List Char) : Except String (List Char × List Char) :=
  match s with
  | ':' :: _ => .error "missing protocol scheme"
  | _ =>
    match getSchemeCore s [] with
    | some r => .ok r
    | none => .ok ([], s)

/-- Go `validOptionalPort`: empty, or `:` followed by digits only. -/
def validOptionalPort : List Char → Bool
  | [] => true
  | ':' :: ds => ds.all isDigitGo
  | _ => false

/-- Index-from-the-left split at the last `:` (Go `strings.LastIndex`):
the part before and the part from the colon on, when a colon occurs. -/
def splitLastColon (s : List Char) : Option (List Char × List Char) :=
  match afterLast ':' s with
  | none => none
  | some afterL => some (s.take (s.length - afterL.length - 1), ':' :: afterL)

/-- Go `parseHost` (non-IP-literal and IP-literal cases; zone identifiers
are not modelled). Returns the decoded host. -/
def parseHostGo (host : List Char) : Except String String :=
  match host with
  | '[' :: _ =>
    match afterLast ']' host with
    | none => .error "missing ']' in host"
    | some afterBr =>
      if !validOptionalPort afterBr then
        .error "invalid port after host"
      else
        match unescapeHost host with
        | .ok l => .ok (String.mk l)
        | .error e => .error e
  | _ =>
    match splitLastColon host with
    | some (_, colonPort) =>
      if !validOptionalPort colonPort then
        .error "invalid port after host"
      else
        match unescapeHost host with
        | .ok l => .ok (String.mk l)
        | .error e => .error e
    | none =>
      match unescapeHost host with
      | .ok l => .ok (String.mk l)
      | .error e => .error e

/-- Go `parseAuthority`: optional `userinfo@` (split at the last `@`,
characters validated, userinfo itself dropped from the model), then the
host. -/
def parseAuthorityGo (auth : List Char) : Except String String :=
  match afterLast '@' auth with
  | none => parseHostGo auth
  | some hostPart =>
    let userinfo := auth.take (auth.length - hostPart.length - 1)
    if !userinfo.all userinfoOkChar then
      .error "net/url: invalid userinfo"
    else
      parseHostGo hostPart

/-- Go `url.Parse` (with `viaRequest = false`), restricted to the modelled
fields: control-byte check, fragment cut, scheme extraction and
lowercasing, query cut, the opaque / rootless cases, authority parsing,
and path decoding. `ForceQuery` and fragment validation are not modelled. -/
def urlParse (str : String) : Except String GoURL :=
  let s := str.toList
  if s.any isCTL then .error "net/url: invalid control character in URL"
  else
    let beforeFrag := (cutList '#' s).1
    match getSchemeGo beforeFrag with
    | .error e => .error e
    | .ok (schemeL, rest0) =>
      let scheme := toLowerAscii (String.mk schemeL)
      let cutQ := cutList '?' rest0
      let rest1 := cutQ.1
      let rawQuery := match cutQ.2 with
        | some q => String.mk q
        | none => ""
      if !listStartsWith rest1 ['/'] then
        if scheme ≠ "" then
          .ok { scheme := scheme, opq := String.mk rest1, rawQuery := rawQuery }
        else if ((cutList '/' rest1).1).contains ':' then
          .error "first path segment in URL cannot contain colon"
        else
          match unescapePath rest1 with
          | .ok p => .ok { scheme := scheme, path := String.mk p, rawQuery := rawQuery }
          | .error e => .error e
      else
        if (scheme ≠ "" || !listStartsWith rest1 ['/', '/', '/']) &&
            listStartsWith rest1 ['/', '/'] then
          let after2 := rest1.drop 2
          let br := breakAt '/' after2
          match parseAuthorityGo br.1 with
          | .error e => .error e
          | .ok host =>
            match unescapePath br.2 with
            | .ok p =>
              .ok { scheme := scheme, host := host, path := String.mk p, rawQuery := rawQuery }
            | .error e => .error e
        else
          match unescapePath rest1 with
          | .ok p => .ok { scheme := scheme, path := String.mk p, rawQuery := rawQuery }
          | .error e => .error e

/-- Uppercase hex digit of a value below 16. -/
def hexDigitUp (n : Nat) : Char :=
  if n < 10 then Char.ofNat ('0'.toNat + n)
  else Char.ofNat ('A'.toNat + (n - 10))

/-- Percent-escape one character (byte-faithful for ASCII). -/
def percentEscape (c : Char) : List Char :=
  ['%', hexDigitUp (c.toNat % 256 / 16), hexDigitUp (c.toNat % 16)]

/-- Go `escape(s, encodeHost)`. -/
def escapeHost (s : String) : String :=
  String.mk (s.toList.flatMap fun c => if hostOkChar c then [c] else percentEscape c)

/-- Go `escape(s, encodePath)`, the `EscapedPath` of a URL without a
`RawPath`. -/
def escapePath (s : String) : String :=
  String.mk (s.toList.flatMap fun c => if pathOkChar c then [c] else percentEscape c)

/-- Go `(*url.URL).String()` restricted to the modelled fields (no user,
no fragment, no `ForceQuery`/`OmitHost`). -/
def urlString (u : GoURL) : String :=
  let pre :=
    (if u.scheme ≠ "" then u.scheme ++ ":" else "") ++
    (if u.opq ≠ "" then u.opq
     else
       (if u.scheme ≠ "" || u.host ≠ "" then
          (if u.host ≠ "" || u.path ≠ "" then "//" else "") ++ escapeHost u.host
        else "") ++
       (let p := escapePath u.path
        if p ≠ "" && !listStartsWith p.toList ['/'] && u.host ≠ "" then "/" ++ p else p))
  let pre :=
    if u.scheme = "" && u.opq = "" && u.host = "" && u.path ≠ "" &&
        ((cutList '/' (escapePath u.path).toList).1).contains ':' then
      "./" ++ pre
    else pre
  pre ++ (if u.rawQuery ≠ "" then "?" ++ u.rawQuery else "")

/-! ## The ProxyChain orchestrator (`proxychain/proxychain.go`)

`μ` and `ρ` are abstract tags for request and response modifiers; an `Env`
interprets a tag as the state transformer the Go closure performs (a
`ReqMod`/`ResMod` is `func(*ProxyChain) error` and may mutate any field,
including the modifier lists themselves — that is how `AddReqMods` called
from inside a running modifier is expressed). The upstream dispatch
(`p.Client.Do(p.Req)` followed by `io.ReadAll(resp.Body)`) is likewise an
environment-supplied outcome. -/

/-- The inbound fiber context: the wildcard capture `Ctx.Params("*")` and
the `referer` header `Ctx.Get("referer")`. -/
structure Ctx where
  param : String
  referer : String
deriving DecidableEq, Repr

/-- The `ProxyChain` struct. Go nil pointers are `none`; `Client`,
`Req`, `Resp` and the ruleset are opaque to the orchestrator and carried
as uninterpreted strings; `Body []byte` is carried as a byte string. -/
structure PC (μ ρ : Type) where
  ctx : Option Ctx := none
  url : Option GoURL := none
  client : Option String := none
  req : Option String := none
  resp : Option String := none
  body : Option String := none
  reqMods : List μ := []
  resMods : List ρ := []
  rules : Option String := none
  verbose : Bool := false
  _abort_err : Option String := none
deriving DecidableEq, Repr

/-- A Go nil-pointer dereference: on a nil `*fiber.Ctx`
(`p.Ctx.Response()` / `p.Ctx.Send`) or on a nil `*url.URL`
(`p.URL.String()` / `p.URL.Scheme`). -/
inductive GoPanic
  | nilCtx
  | nilURL
deriving DecidableEq, Repr

/-- Observable events of one exchange: writes to the caller's response,
log lines, upstream dispatch, buffering of the upstream body, and the
runs of individual modifiers. -/
inductive Eff (μ ρ : Type)
  | setStatus (code : Nat)
  | send (body : String)
  | log (msg : String)
  | dispatch
  | buffered (body : String)
  | ranReqMod (m : μ)
  | ranResMod (m : ρ)
deriving DecidableEq, Repr

/-- Is this event the upstream dispatch? -/
def Eff.isDispatch {μ ρ : Type} : Eff μ ρ → Bool
  | .dispatch => true
  | _ => false

/-- Is this event the run of a response modifier? -/
def Eff.isRanResMod {μ ρ : Type} : Eff μ ρ → Bool
  | .ranResMod _ => true
  | _ => false

/-- Is this event a body send to the caller? -/
def Eff.isSend {μ ρ : Type} : Eff μ ρ → Bool
  | .send _ => true
  | _ => false

/-- Outcome of `p.Client.Do(p.Req)` followed by `io.ReadAll(resp.Body)`:
transport error, body-read error after a received response, or a response
with its fully buffered body. -/
inductive DispatchOutcome
  | doErr (e : String)
  | readErr (resp : String) (e : String)
  | ok (resp : String) (body : String)
deriving DecidableEq, Repr

/-- Interpretation environment: what each modifier tag does to the state
(returning `some err` to signal failure, as the Go closure returns a
non-nil `error`), and what the upstream exchange yields. -/
structure Env (μ ρ : Type) where
  runReq : μ → PC μ ρ → PC μ ρ × Option String
  runRes : ρ → PC μ ρ → PC μ ρ × Option String
  dispatch : PC μ ρ → DispatchOutcome

variable {μ ρ : Type}

/-- Model of `NewProxyChain`: fresh state with the package-level default client. -/
def NewProxyChain (defaultClient : Option String) : PC μ ρ :=
  { client := defaultClient }

/-- Model of `SetReqMods`: replace the request-modifier list. -/
def SetReqMods (p : PC μ ρ) (mods : List μ) : PC μ ρ :=
  { p with reqMods := mods }

/-- Model of `AddReqMods`: append to the request-modifier list. -/
def AddReqMods (p : PC μ ρ) (mods : List μ) : PC μ ρ :=
  { p with reqMods := p.reqMods ++ mods }

/-- Model of `SetResMods`: replace the response-modifier list. -/
def SetResMods (p : PC μ ρ) (mods : List ρ) : PC μ ρ :=
  { p with resMods := mods }

/-- Model of `AddResMods`: append to the response-modifier list. -/
def AddResMods (p : PC μ ρ) (mods : List ρ) : PC μ ρ :=
  { p with resMods := p.resMods ++ mods }

/-- Model of `AddRuleset`. -/
def AddRuleset (p : PC μ ρ) (rs : String) : PC μ ρ :=
  { p with rules := some rs }

/-- Model of `SetClient`. -/
def SetClient (p : PC μ ρ) (c : String) : PC μ ρ :=
  { p with client := some c }

/-- Model of `SetVerbose`. -/
def SetVerbose (p : PC μ ρ) : PC μ ρ :=
  { p with verbose := true }

/-- Model of `_reset`: clear `_abort_err`, `Body`, `Req`, `Resp`, `Ctx`, `URL`. -/
def _reset (p : PC μ ρ) : PC μ ρ :=
  { p with _abort_err := none, body := none, req := none, resp := none,
           ctx := none, url := none }

/-- Model of `abort`: `defer _reset`, record the error, set status 500 on the
caller's response, build `ProxyChain error for '<URL>': <cause>`, send it,
log it, and return the enriched error. Dereferencing `p.Ctx` when it is
nil, or `p.URL.String()` when `p.URL` is nil, panics — the deferred
`_reset` still runs, and any effects already performed remain. -/
def abort (p : PC μ ρ) (err : String) : PC μ ρ × List (Eff μ ρ) × Except GoPanic String :=
  match p.ctx with
  | none => (_reset { p with _abort_err := some err }, [], .error .nilCtx)
  | some _ =>
    match p.url with
    | none => (_reset { p with _abort_err := some err }, [.setStatus 500], .error .nilURL)
    | some u =>
      let e := "ProxyChain error for '" ++ urlString u ++ "': " ++ err
      (_reset { p with _abort_err := some err }, [.setStatus 500, .send e, .log e], .ok e)

/-- The capture after the decode-or-fall-back step of `extractUrl`:
`url.QueryUnescape(p.Ctx.Params("*"))`, falling back to the raw capture
when decoding fails. -/
def decodeOrRaw (capture : String) : String :=
  match queryUnescape capture with
  | .ok s => s
  | .error _ => capture

/-- Referer-path recovery of `extractUrl` (lines 256-278): recover the
embedded absolute URL from the referer path (one leading `/` stripped),
build the target from its scheme/host and the captured path/query — and
then re-test `urlQuery.Scheme` (the *capture's* scheme, itself empty on
this branch), exactly as the source does at its line 270, so the error
return always fires here. `uq` is the parsed capture, `reqUrl` the decoded
capture string. -/
def extractFromReferer (p : PC μ ρ) (reqUrl : String) (uq refererUrl : GoURL) :
    PC μ ρ × Except String Unit :=
  match urlParse (trimPrefixSlash refererUrl.path) with
  | .error e =>
    (p, .error ("error parsing real URL from referer '" ++ refererUrl.path ++ "': " ++ e))
  | .ok realUrl =>
    let p1 := { p with url := some { scheme := realUrl.scheme, host := realUrl.host,
                                     path := uq.path, rawQuery := uq.rawQuery : GoURL } }
    if uq.scheme = "" then
      (p1, .error ("ProxyChain failed to extract url from relative path: '" ++ reqUrl ++ "'"))
    else
      (p1, .ok ())

/-- Referer handling of `extractUrl` (lines 249-254): parse the referer
header; a parse error or an empty host is a resolution error (the `%v`
of the nil error renders `<nil>`). -/
def extractRelative (p : PC μ ρ) (c : Ctx) (reqUrl : String) (uq : GoURL) :
    PC μ ρ × Except String Unit :=
  match urlParse c.referer with
  | .error e =>
    (p, .error ("error parsing referer URL from req: '" ++ reqUrl ++ "': " ++ e))
  | .ok refererUrl =>
    if refererUrl.host = "" then
      (p, .error ("error parsing referer URL from req: '" ++ reqUrl ++ "': <nil>"))
    else extractFromReferer p reqUrl uq refererUrl

/-- Capture handling of `extractUrl` (lines 236-247): a parse failure of
the capture is fatal; a capture with a scheme is already absolute and is
used as-is; a relative capture goes to the referer logic. -/
def extractUrlParsed (p : PC μ ρ) (c : Ctx) (reqUrl : String) (res : Except String GoURL) :
    PC μ ρ × Except String Unit :=
  match res with
  | .error e => (p, .error ("error parsing request URL '" ++ reqUrl ++ "': " ++ e))
  | .ok urlQuery =>
    if urlQuery.scheme ≠ "" then
      ({ p with url := some urlQuery }, .ok ())
    else extractRelative p c reqUrl urlQuery

/-- Model of `extractUrl`: decode the capture (falling back to the raw
value), parse it, and continue per the capture's shape. -/
def extractUrl (p : PC μ ρ) : PC μ ρ × Except String Unit :=
  match p.ctx with
  | none => (p, .error "no ctx")
  | some c => extractUrlParsed p c (decodeOrRaw c.param) (urlParse (decodeOrRaw c.param))

/-- Tail of `SetCtx` applied to the resolution outcome: on a resolution
error call `abort` and then store the enriched error it returned
(`abort`'s own deferred `_reset` has already run by then; if `abort`
panics the assignment never happens and the panic propagates). -/
def SetCtxFinish (p1 : PC μ ρ) (r : Except String Unit) :
    PC μ ρ × List (Eff μ ρ) × Except GoPanic Unit :=
  match r with
  | .ok _ => (p1, [], .ok ())
  | .error e =>
    match abort p1 e with
    | (p2, effs, .ok enriched) => ({ p2 with _abort_err := some enriched }, effs, .ok ())
    | (p2, effs, .error pan) => (p2, effs, .error pan)

/-- Model of `SetCtx`: bind the context, run the resolver, finish per its
outcome. -/
def SetCtx (p : PC μ ρ) (c : Ctx) : PC μ ρ × List (Eff μ ρ) × Except GoPanic Unit :=
  SetCtxFinish (extractUrl { p with ctx := some c }).1 (extractUrl { p with ctx := some c }).2

/-- The request-modifier loop of `_execute`. Go's `range` iterates the
slice value captured when the loop starts, so the loop runs over that
snapshot even when a modifier changes `p.reqMods`. Returns the final
state, the modifiers actually run in order, and the first error. -/
def runReqMods (env : Env μ ρ) : List μ → PC μ ρ → PC μ ρ × List μ × Option String
  | [], p => (p, [], none)
  | m :: rest, p =>
    match env.runReq m p with
    | (p1, some e) => (p1, [m], some e)
    | (p1, none) =>
      let r := runReqMods env rest p1
      (r.1, m :: r.2.1, r.2.2)

/-- The response-modifier loop of `_execute`, over the snapshot of
`p.resMods`, same shape as the request loop. -/
def runResMods (env : Env μ ρ) : List ρ → PC μ ρ → PC μ ρ × List ρ × Option String
  | [], p => (p, [], none)
  | m :: rest, p =>
    match env.runRes m p with
    | (p1, some e) => (p1, [m], some e)
    | (p1, none) =>
      let r := runResMods env rest p1
      (r.1, m :: r.2.1, r.2.2)

/-- Shared abort step of `_execute` (`return nil, p.abort(err)`). -/
def abortStep (p : PC μ ρ) (err : String) (effs : List (Eff μ ρ)) :
    PC μ ρ × List (Eff μ ρ) × Except GoPanic (Except String Unit) :=
  match abort p err with
  | (p2, aeffs, .ok e) => (p2, effs ++ aeffs, .ok (.error e))
  | (p2, aeffs, .error pan) => (p2, effs ++ aeffs, .error pan)

/-- Response phase of `_execute`: run the response-modifier loop over the
snapshot of `p2.resMods`; a failure aborts, success returns with the body
left in the state (`&p.Body`). -/
def _responsePhase (env : Env μ ρ) (p2 : PC μ ρ) (effs : List (Eff μ ρ)) :
    PC μ ρ × List (Eff μ ρ) × Except GoPanic (Except String Unit) :=
  match runResMods env p2.resMods p2 with
  | (p3, ranR, some err) => abortStep p3 err (effs ++ ranR.map Eff.ranResMod)
  | (p3, ranR, none) => (p3, effs ++ ranR.map Eff.ranResMod, .ok (.ok ()))

/-- Dispatch phase of `_execute`: `p.Client.Do(p.Req)`, store the
response, `io.ReadAll`, store the buffered body; either failure aborts. -/
def _dispatchPhase (env : Env μ ρ) (p1 : PC μ ρ) (effs : List (Eff μ ρ)) :
    PC μ ρ × List (Eff μ ρ) × Except GoPanic (Except String Unit) :=
  match env.dispatch p1 with
  | .doErr e => abortStep p1 e effs
  | .readErr r e => abortStep { p1 with resp := some r } e effs
  | .ok r b =>
    _responsePhase env { p1 with resp := some r, body := some b } (effs ++ [Eff.buffered b])

/-- Request phase of `_execute`: run the request-modifier loop over the
snapshot of `p.reqMods`; a failure aborts, success proceeds to dispatch. -/
def _runPhase (env : Env μ ρ) (p : PC μ ρ) :
    PC μ ρ × List (Eff μ ρ) × Except GoPanic (Except String Unit) :=
  match runReqMods env p.reqMods p with
  | (p1, ran, some err) => abortStep p1 err (ran.map Eff.ranReqMod)
  | (p1, ran, none) => _dispatchPhase env p1 (ran.map Eff.ranReqMod ++ [Eff.dispatch])

/-- URL check of `_execute` (line 158, `p.URL.Scheme`): a nil URL is a
nil-pointer dereference; an empty scheme is a plain error return with no
abort. -/
def _execCheckURL (env : Env μ ρ) (p : PC μ ρ) :
    PC μ ρ × List (Eff μ ρ) × Except GoPanic (Except String Unit) :=
  match p.url with
  | none => (p, [], .error .nilURL)
  | some u =>
    if u.scheme = "" then
      (p, [], .ok (.error "request url not set or invalid. Check ProxyChain ReqMods for issues"))
    else _runPhase env p

/-- Cached-abort check of `_execute` (lines 152-154): return the cached
`_abort_err` without a new abort. -/
def _execCheckAbort (env : Env μ ρ) (p : PC μ ρ) :
    PC μ ρ × List (Eff μ ρ) × Except GoPanic (Except String Unit) :=
  match p._abort_err with
  | some e => (p, [], .ok (.error e))
  | none => _execCheckURL env p

/-- Model of `_execute`: `_validate_ctx_is_set` first — on a nil ctx it
calls `abort`, which dereferences the nil ctx (`p.Ctx.Response()`) after
recording the error, and the panic propagates with `abort`'s deferred
reset applied — then the cached-abort check, the URL check, the
request-modifier loop, the dispatch with body buffering, and the
response-modifier loop. -/
def _execute (env : Env μ ρ) (p : PC μ ρ) :
    PC μ ρ × List (Eff μ ρ) × Except GoPanic (Except String Unit) :=
  match p.ctx with
  | none =>
    let msg := "proxyChain was called without setting a fiber Ctx. Use ProxyChain.SetCtx()"
    (_reset { p with _abort_err := some msg }, [], .error .nilCtx)
  | some _ => _execCheckAbort env p

/-- Tail of `Execute` applied to the result of `_execute`: on a panic the
deferred `_reset` still runs and the panic propagates; on an error the
error is returned (the abort already wrote the 500); on success
`p.Ctx.Send(*body)` — itself a nil-ctx panic if a modifier cleared the
ctx — and in every case the deferred `_reset`. -/
def ExecuteFinish (p1 : PC μ ρ) (effs : List (Eff μ ρ))
    (r : Except GoPanic (Except String Unit)) :
    PC μ ρ × List (Eff μ ρ) × Except GoPanic (Option String) :=
  match r with
  | .error pan => (_reset p1, effs, .error pan)
  | .ok (.error e) => (_reset p1, effs, .ok (some e))
  | .ok (.ok _) =>
    match p1.ctx with
    | none => (_reset p1, effs, .error .nilCtx)
    | some _ => (_reset p1, effs ++ [Eff.send (p1.body.getD "")], .ok none)

/-- Model of `Execute`: `defer _reset` (so the reset runs on every path,
the panic paths included), `_execute`, and on success the body send. The
returned value is the Go `error` (`none` for nil). -/
def Execute (env : Env μ ρ) (p : PC μ ρ) :
    PC μ ρ × List (Eff μ ρ) × Except GoPanic (Option String) :=
  ExecuteFinish (_execute env p).1 (_execute env p).2.1 (_execute env p).2.2

/-- Model of `ExecuteAPIContent`: textually identical to `Execute` in the
source (the structured envelope is a TODO there). -/
def ExecuteAPIContent (env : Env μ ρ) (p : PC μ ρ) :
    PC μ ρ × List (Eff μ ρ) × Except GoPanic (Option String) :=
  ExecuteFinish (_execute env p).1 (_execute env p).2.1 (_execute env p).2.2

/-- One full exchange as a handler performs it:
`p.SetCtx(ctx).Execute()`. When `SetCtx` panics, the chained `Execute`
call is never reached. -/
def handle (env : Env μ ρ) (p : PC μ ρ) (c : Ctx) :
    PC μ ρ × List (Eff μ ρ) × Except GoPanic (Option String) :=
  match (SetCtx p c).2.2 with
  | .error pan => ((SetCtx p c).1, (SetCtx p c).2.1, .error pan)
  | .ok _ =>
    ((Execute env (SetCtx p c).1).1,
     (SetCtx p c).2.1 ++ (Execute env (SetCtx p c).1).2.1,
     (Execute env (SetCtx p c).1).2.2)

/-! ## Concrete scenario material

Modifier tags are natural numbers. `envGrow` interprets tag `0` the way
`rqm.RequestArchiveIs` behaves: while running it appends a further
modifier (tag `1`, standing for `ResolveWithGoogleDoH()`) to the request
list via `AddReqMods`, and succeeds; tag `1` is a no-op. `envId` makes
every modifier a successful no-op; `envFail` makes tag `0` fail. -/

/-- A fresh `ProxyChain` over `Nat` modifier tags. -/
def pcFresh : PC Nat Nat := {}

/-- Environment with a self-expanding modifier at tag `0`
(the `RequestArchiveIs` pattern: `px.AddReqMods(ResolveWithGoogleDoH())`
from inside the running modifier). -/
def envGrow : Env Nat Nat where
  runReq m p := if m = 0 then (AddReqMods p [1], none) else (p, none)
  runRes _ p := (p, none)
  dispatch _ := .ok "resp" "body"

/-- Environment where every modifier is a successful no-op and the
upstream dispatch succeeds. -/
def envId : Env Nat Nat where
  runReq _ p := (p, none)
  runRes _ p := (p, none)
  dispatch _ := .ok "resp" "body"

/-- Environment where request modifier `0` fails. -/
def envFail : Env Nat Nat where
  runReq m p := if m = 0 then (p, some "boom") else (p, none)
  runRes _ p := (p, none)
  dispatch _ := .ok "resp" "body"

/-- Relative capture with a proxied referer (the spec's scenario for the
referer-based reconstruction). -/
def ctxRelGood : Ctx :=
  { param := "/images/pic.png", referer := "https://proxyhost/https://example.com/page" }

/-- Short relative capture with the same proxied referer. -/
def ctxRelX : Ctx :=
  { param := "/x", referer := "https://proxyhost/https://example.com/page" }

/-- Relative capture with no referer header. -/
def ctxNoRef : Ctx :=
  { param := "images/pic.png", referer := "" }

/-- Absolute capture (with a query), as in the spec's absolute scenario. -/
def ctxAbs : Ctx :=
  { param := "https://example.com/a?x=1", referer := "" }

/-- The parse of `ctxAbs.param`. -/
def urlStory : GoURL :=
  { scheme := "https", host := "example.com", path := "/a", rawQuery := "x=1" }

/-- An orchestrator ready to execute: bound context, resolved URL, one
request modifier with tag `0`. -/
def pReady : PC Nat Nat :=
  { ctx := some ctxAbs, url := some urlStory, reqMods := [0] }

/-- The target the source computes (and then discards) for `ctxRelGood`:
scheme and host from the referer-embedded URL, path and query from the
capture. -/
def urlPicReconstructed : GoURL :=
  { scheme := "https", host := "example.com", path := "/images/pic.png", rawQuery := "" }

/-- The parse of the relative capture `images/pic.png`. -/
def urlRelPic : GoURL := { path := "images/pic.png" }

/-- A fresh orchestrator with the absolute-capture context bound
(the state `SetCtx` sees just before resolution). -/
def pAbsCtx : PC Nat Nat := { ctx := some ctxAbs }

/-- The pipeline-configuration fields (modifier lists, client, ruleset,
verbosity) of `q'` agree with those of `q`. -/
def configPreserved (q q' : PC μ ρ) : Prop :=
  q'.reqMods = q.reqMods ∧ q'.resMods = q.resMods ∧ q'.client = q.client ∧
  q'.rules = q.rules ∧ q'.verbose = q.verbose

/-- The per-exchange owned fields (context, URL, outbound request,
upstream response, buffered body, cached abort error) are all cleared. -/
def perExchangeCleared (q : PC μ ρ) : Prop :=
  q.ctx = none ∧ q.url = none ∧ q.req = none ∧ q.resp = none ∧
  q.body = none ∧ q._abort_err = none

/-! ## Helper lemmas -/

/-- Effects emitted by `abort` are status/send/log writes only: never a
dispatch, never a response-modifier run. -/
theorem abort_effs_benign (p : PC μ ρ) (err : String) :
    ((abort p err).2.1.all fun e => !e.isDispatch && !e.isRanResMod) = true := by
  unfold abort
  cases p.ctx <;> cases p.url <;>
    simp [Eff.isDispatch, Eff.isRanResMod]

/-- Effects of `abortStep` are the incoming effects plus `abort`'s. -/
theorem abortStep_effs (p : PC μ ρ) (err : String) (effs : List (Eff μ ρ)) :
    (abortStep p err effs).2.1 = effs ++ (abort p err).2.1 := by
  unfold abortStep
  rcases h : abort p err with ⟨p2, aeffs, r⟩
  cases r <;> simp [h]

/-- The outcome of `abortStep` is never a success. -/
theorem abortStep_not_ok (p : PC μ ρ) (err : String) (effs : List (Eff μ ρ)) :
    (abortStep p err effs).2.2 ≠ .ok (.ok ()) := by
  unfold abortStep
  rcases h : abort p err with ⟨p2, aeffs, r⟩
  cases r <;> simp [h]

/-- When the request-modifier loop stops with an error, the modifiers that
ran form the snapshot prefix through the failing one. -/
theorem runReqMods_error_ran_upto (env : Env μ ρ) :
    ∀ (mods : List μ) (p p1 : PC μ ρ) (ran : List μ) (err : String),
      runReqMods env mods p = (p1, ran, some err) →
      ∃ k, k < mods.length ∧ ran = mods.take (k + 1)
  | [], p, p1, ran, err, h => by
    simp [runReqMods] at h
  | m :: rest, p, p1, ran, err, h => by
    rw [runReqMods] at h
    rcases hrun : env.runReq m p with ⟨q, res⟩
    rw [hrun] at h
    cases res with
    | some e =>
      refine ⟨0, by simp, ?_⟩
      simp at h
      simp [h.2.1]
    | none =>
      simp only at h
      rcases hrec : runReqMods env rest q with ⟨q1, ran1, res1⟩
      rw [hrec] at h
      simp only [Prod.mk.injEq] at h
      obtain ⟨h1, h2, h3⟩ := h
      rw [h3] at hrec
      obtain ⟨k, hk, hran⟩ := runReqMods_error_ran_upto env rest q q1 ran1 err hrec
      exact ⟨k + 1, by simpa using Nat.succ_lt_succ hk, by simp [← h2, hran]⟩

/-- Configuration preservation is reflexive. -/
theorem configPreserved_refl (q : PC μ ρ) : configPreserved q q :=
  ⟨rfl, rfl, rfl, rfl, rfl⟩

/-- Configuration preservation is transitive. -/
theorem configPreserved_trans {a b c : PC μ ρ}
    (h1 : configPreserved a b) (h2 : configPreserved b c) : configPreserved a c :=
  ⟨h2.1.trans h1.1, h2.2.1.trans h1.2.1, h2.2.2.1.trans h1.2.2.1,
   h2.2.2.2.1.trans h1.2.2.2.1, h2.2.2.2.2.trans h1.2.2.2.2⟩

/-- The reset touches none of the configuration fields. -/
theorem reset_configPreserved (q : PC μ ρ) : configPreserved q (_reset q) :=
  ⟨rfl, rfl, rfl, rfl, rfl⟩

/-- The reset clears every per-exchange field. -/
theorem reset_cleared (q : PC μ ρ) : perExchangeCleared (_reset q) :=
  ⟨rfl, rfl, rfl, rfl, rfl, rfl⟩

/-- An abort leaves the configuration fields unchanged. -/
theorem abort_configPreserved (q : PC μ ρ) (err : String) :
    configPreserved q (abort q err).1 := by
  unfold abort
  rcases hc : q.ctx with _ | c <;> [skip; rcases hu : q.url with _ | u] <;>
    exact ⟨rfl, rfl, rfl, rfl, rfl⟩

/-- An abort step leaves the configuration fields unchanged. -/
theorem abortStep_configPreserved (q : PC μ ρ) (err : String) (effs : List (Eff μ ρ)) :
    configPreserved q (abortStep q err effs).1 := by
  have h0 := abort_configPreserved q err
  unfold abortStep
  rcases h : abort q err with ⟨p2, aeffs, r⟩
  rw [h] at h0
  rcases r with pan | e <;> exact h0

/-- Stage equation: a bound ctx passes the validate step. -/
theorem _execute_ctx_some (env : Env μ ρ) (p : PC μ ρ) (c : Ctx) (hc : p.ctx = some c) :
    _execute env p = _execCheckAbort env p := by
  unfold _execute; rw [hc]

/-- Stage equation: an unbound ctx makes the validate step abort, and the
abort panics on the nil ctx. -/
theorem _execute_ctx_none (env : Env μ ρ) (p : PC μ ρ) (hc : p.ctx = none) :
    _execute env p = (_reset p, [], .error .nilCtx) := by
  unfold _execute; rw [hc]; rfl

/-- Stage equation: with no cached abort error the URL check runs. -/
theorem _execCheckAbort_none (env : Env μ ρ) (p : PC μ ρ) (hab : p._abort_err = none) :
    _execCheckAbort env p = _execCheckURL env p := by
  unfold _execCheckAbort; rw [hab]

/-- Stage equation: a cached abort error is returned as-is, with no new
abort and no effects. -/
theorem _execCheckAbort_some (env : Env μ ρ) (p : PC μ ρ) (e : String)
    (hab : p._abort_err = some e) :
    _execCheckAbort env p = (p, [], .ok (.error e)) := by
  unfold _execCheckAbort; rw [hab]

/-- Stage equation: a nil URL is dereferenced (`p.URL.Scheme`), a panic. -/
theorem _execCheckURL_none (env : Env μ ρ) (p : PC μ ρ) (hu : p.url = none) :
    _execCheckURL env p = (p, [], .error .nilURL) := by
  unfold _execCheckURL; rw [hu]

/-- Stage equation: an empty scheme is a plain error return. -/
theorem _execCheckURL_empty (env : Env μ ρ) (p : PC μ ρ) (u : GoURL)
    (hu : p.url = some u) (hs : u.scheme = "") :
    _execCheckURL env p =
      (p, [], .ok (.error "request url not set or invalid. Check ProxyChain ReqMods for issues")) := by
  unfold _execCheckURL; rw [hu]; exact if_pos hs

/-- Stage equation: a URL with a non-empty scheme passes the URL check. -/
theorem _execCheckURL_ok (env : Env μ ρ) (p : PC μ ρ) (u : GoURL)
    (hu : p.url = some u) (hs : ¬ u.scheme = "") :
    _execCheckURL env p = _runPhase env p := by
  unfold _execCheckURL; rw [hu]; exact if_neg hs

/-- Stage equation: a failing request loop ends in an abort step. -/
theorem _runPhase_fail (env : Env μ ρ) (p p1 : PC μ ρ) (ran : List μ) (err : String)
    (h : runReqMods env p.reqMods p = (p1, ran, some err)) :
    _runPhase env p = abortStep p1 err (ran.map Eff.ranReqMod) := by
  unfold _runPhase; rw [h]

/-- Stage equation: a successful request loop proceeds to dispatch. -/
theorem _runPhase_ok (env : Env μ ρ) (p p1 : PC μ ρ) (ran : List μ)
    (h : runReqMods env p.reqMods p = (p1, ran, none)) :
    _runPhase env p = _dispatchPhase env p1 (ran.map Eff.ranReqMod ++ [Eff.dispatch]) := by
  unfold _runPhase; rw [h]

/-- Stage equation: a successful dispatch stores response and body and
proceeds to the response phase. -/
theorem _dispatchPhase_ok (env : Env μ ρ) (p1 : PC μ ρ) (effs : List (Eff μ ρ))
    (r b : String) (h : env.dispatch p1 = .ok r b) :
    _dispatchPhase env p1 effs =
      _responsePhase env { p1 with resp := some r, body := some b } (effs ++ [Eff.buffered b]) := by
  unfold _dispatchPhase; rw [h]

/-- Stage equation: an empty response-modifier snapshot ends the pipeline
with the state untouched and no further effects. -/
theorem _responsePhase_empty (env : Env μ ρ) (p2 : PC μ ρ) (effs : List (Eff μ ρ))
    (h : p2.resMods = []) :
    _responsePhase env p2 effs = (p2, effs ++ [], .ok (.ok ())) := by
  unfold _responsePhase; rw [h]; rfl

/-- The request-modifier loop preserves the configuration fields whenever
every modifier of the environment does. -/
theorem runReqMods_configPreserved (env : Env μ ρ)
    (hreq : ∀ m q, configPreserved q (env.runReq m q).1) :
    ∀ (mods : List μ) (p : PC μ ρ), configPreserved p (runReqMods env mods p).1
  | [], p => configPreserved_refl p
  | m :: rest, p => by
    rw [runReqMods]
    have h1 := hreq m p
    rcases h : env.runReq m p with ⟨q, res⟩
    rw [h] at h1
    rcases res with _ | e
    · exact configPreserved_trans h1 (runReqMods_configPreserved env hreq rest q)
    · exact h1

/-- The response-modifier loop preserves the configuration fields whenever
every modifier of the environment does. -/
theorem runResMods_configPreserved (env : Env μ ρ)
    (hres : ∀ m q, configPreserved q (env.runRes m q).1) :
    ∀ (mods : List ρ) (p : PC μ ρ), configPreserved p (runResMods env mods p).1
  | [], p => configPreserved_refl p
  | m :: rest, p => by
    rw [runResMods]
    have h1 := hres m p
    rcases h : env.runRes m p with ⟨q, res⟩
    rw [h] at h1
    rcases res with _ | e
    · exact configPreserved_trans h1 (runResMods_configPreserved env hres rest q)
    · exact h1

/-- The response phase preserves the configuration fields whenever every
response modifier of the environment does. -/
theorem _responsePhase_configPreserved (env : Env μ ρ)
    (hres : ∀ m q, configPreserved q (env.runRes m q).1)
    (p2 : PC μ ρ) (effs : List (Eff μ ρ)) :
    configPreserved p2 (_responsePhase env p2 effs).1 := by
  have hl := runResMods_configPreserved env hres p2.resMods p2
  unfold _responsePhase
  rcases h : runResMods env p2.resMods p2 with ⟨p3, ranR, res⟩
  rw [h] at hl
  rcases res with _ | err
  · exact hl
  · exact configPreserved_trans hl (abortStep_configPreserved p3 err _)

/-- The dispatch phase preserves the configuration fields whenever every
response modifier of the environment does. -/
theorem _dispatchPhase_configPreserved (env : Env μ ρ)
    (hres : ∀ m q, configPreserved q (env.runRes m q).1)
    (p1 : PC μ ρ) (effs : List (Eff μ ρ)) :
    configPreserved p1 (_dispatchPhase env p1 effs).1 := by
  unfold _dispatchPhase
  rcases hd : env.dispatch p1 with e | ⟨r, e⟩ | ⟨r, b⟩
  · exact abortStep_configPreserved p1 e _
  · exact configPreserved_trans (⟨rfl, rfl, rfl, rfl, rfl⟩ :
      configPreserved p1 { p1 with resp := some r })
      (abortStep_configPreserved { p1 with resp := some r } e _)
  · exact configPreserved_trans (⟨rfl, rfl, rfl, rfl, rfl⟩ :
      configPreserved p1 { p1 with resp := some r, body := some b })
      (_responsePhase_configPreserved env hres _ _)

/-- The request phase preserves the configuration fields whenever every
modifier of the environment does. -/
theorem _runPhase_configPreserved (env : Env μ ρ)
    (hreq : ∀ m q, configPreserved q (env.runReq m q).1)
    (hres : ∀ m q, configPreserved q (env.runRes m q).1)
    (p : PC μ ρ) : configPreserved p (_runPhase env p).1 := by
  have hl := runReqMods_configPreserved env hreq p.reqMods p
  unfold _runPhase
  rcases h : runReqMods env p.reqMods p with ⟨p1, ran, res⟩
  rw [h] at hl
  rcases res with _ | err
  · exact configPreserved_trans hl (_dispatchPhase_configPreserved env hres p1 _)
  · exact configPreserved_trans hl (abortStep_configPreserved p1 err _)

/-- The pipeline body preserves the configuration fields whenever every
modifier of the environment does. -/
theorem _execute_configPreserved (env : Env μ ρ)
    (hreq : ∀ m q, configPreserved q (env.runReq m q).1)
    (hres : ∀ m q, configPreserved q (env.runRes m q).1)
    (p : PC μ ρ) : configPreserved p (_execute env p).1 := by
  rcases hc : p.ctx with _ | c
  · rw [_execute_ctx_none env p hc]; exact reset_configPreserved p
  · rw [_execute_ctx_some env p c hc]
    rcases hab : p._abort_err with _ | e
    · rw [_execCheckAbort_none env p hab]
      rcases hu : p.url with _ | u
      · rw [_execCheckURL_none env p hu]; exact configPreserved_refl p
      · by_cases hs : u.scheme = ""
        · rw [_execCheckURL_empty env p u hu hs]; exact configPreserved_refl p
        · rw [_execCheckURL_ok env p u hu hs]; exact _runPhase_configPreserved env hreq hres p
    · rw [_execCheckAbort_some env p e hab]; exact configPreserved_refl p

/-- Finish equation: a panic propagates past the deferred reset. -/
theorem ExecuteFinish_panic (p1 : PC μ ρ) (effs : List (Eff μ ρ)) (pan : GoPanic) :
    ExecuteFinish p1 effs (.error pan) = (_reset p1, effs, .error pan) := rfl

/-- Finish equation: a pipeline error is returned after the reset. -/
theorem ExecuteFinish_err (p1 : PC μ ρ) (effs : List (Eff μ ρ)) (e : String) :
    ExecuteFinish p1 effs (.ok (.error e)) = (_reset p1, effs, .ok (some e)) := rfl

/-- Finish equation: success with a cleared ctx is the nil-ctx send panic. -/
theorem ExecuteFinish_ok_nilctx (p1 : PC μ ρ) (effs : List (Eff μ ρ))
    (hc : p1.ctx = none) :
    ExecuteFinish p1 effs (.ok (.ok ())) = (_reset p1, effs, .error .nilCtx) := by
  unfold ExecuteFinish; rw [hc]

/-- Finish equation: success with a live ctx sends the buffered body. -/
theorem ExecuteFinish_ok_send (p1 : PC μ ρ) (effs : List (Eff μ ρ)) (c : Ctx)
    (hc : p1.ctx = some c) :
    ExecuteFinish p1 effs (.ok (.ok ())) =
      (_reset p1, effs ++ [Eff.send (p1.body.getD "")], .ok none) := by
  unfold ExecuteFinish; rw [hc]

/-- The first component of the finish step is always the reset state. -/
theorem ExecuteFinish_fst (p1 : PC μ ρ) (effs : List (Eff μ ρ))
    (r : Except GoPanic (Except String Unit)) :
    (ExecuteFinish p1 effs r).1 = _reset p1 := by
  rcases r with pan | res
  · rfl
  · rcases res with e | uu
    · rfl
    · cases uu
      rcases hc : p1.ctx with _ | c
      · rw [ExecuteFinish_ok_nilctx p1 effs hc]
      · rw [ExecuteFinish_ok_send p1 effs c hc]

/-- The effects of the finish step are the pipeline's own effects
whenever the pipeline did not succeed. -/
theorem ExecuteFinish_effs_of_not_ok (p1 : PC μ ρ) (effs : List (Eff μ ρ))
    (r : Except GoPanic (Except String Unit)) (h : r ≠ .ok (.ok ())) :
    (ExecuteFinish p1 effs r).2.1 = effs := by
  rcases r with pan | res
  · rfl
  · rcases res with e | uu
    · rfl
    · cases uu; exact absurd rfl h

/-- Unfolding equation for `Execute` over a computed pipeline result. -/
theorem Execute_eq (env : Env μ ρ) (p q : PC μ ρ) (effs : List (Eff μ ρ))
    (r0 : Except GoPanic (Except String Unit)) (h : _execute env p = (q, effs, r0)) :
    Execute env p = ExecuteFinish q effs r0 := by
  unfold Execute; rw [h]

/-- Abort equation: nil ctx — `p.Ctx.Response()` panics first. -/
theorem abort_nilCtxEq (p : PC μ ρ) (err : String) (hc : p.ctx = none) :
    abort p err = (_reset p, [], .error .nilCtx) := by
  unfold abort; rw [hc]; rfl

/-- Abort equation: live ctx, nil URL — status 500 is set, then
`p.URL.String()` panics before any body is sent. -/
theorem abort_nilURLEq (p : PC μ ρ) (err : String) (c : Ctx)
    (hc : p.ctx = some c) (hu : p.url = none) :
    abort p err = (_reset p, [.setStatus 500], .error .nilURL) := by
  unfold abort; rw [hc, hu]; rfl

/-- Abort equation: live ctx and URL — the enriched 500 error response. -/
theorem abort_okEq (p : PC μ ρ) (err : String) (c : Ctx) (u : GoURL)
    (hc : p.ctx = some c) (hu : p.url = some u) :
    abort p err =
      (_reset p,
       [.setStatus 500, .send ("ProxyChain error for '" ++ urlString u ++ "': " ++ err),
        .log ("ProxyChain error for '" ++ urlString u ++ "': " ++ err)],
       .ok ("ProxyChain error for '" ++ urlString u ++ "': " ++ err)) := by
  unfold abort; rw [hc, hu]; rfl

/-- Resolver equation: with a bound ctx the parsed capture is handled. -/
theorem extractUrl_some (p : PC μ ρ) (c : Ctx) (hc : p.ctx = some c) :
    extractUrl p = extractUrlParsed p c (decodeOrRaw c.param) (urlParse (decodeOrRaw c.param)) := by
  unfold extractUrl; rw [hc]

/-- Resolver equation: an absolute capture is stored as-is. -/
theorem extractUrlParsed_abs (p : PC μ ρ) (c : Ctx) (r : String) (u : GoURL)
    (hs : ¬ u.scheme = "") :
    extractUrlParsed p c r (.ok u) = ({ p with url := some u }, .ok ()) := by
  unfold extractUrlParsed; exact if_pos hs

/-- Resolver equation: a relative capture goes to the referer logic. -/
theorem extractUrlParsed_rel (p : PC μ ρ) (c : Ctx) (r : String) (u : GoURL)
    (hs : u.scheme = "") :
    extractUrlParsed p c r (.ok u) = extractRelative p c r u := by
  unfold extractUrlParsed; exact if_neg (not_not_intro hs)

/-- Resolver equation: an unparseable referer is a resolution error, with
the state untouched. -/
theorem extractRelative_err (p : PC μ ρ) (c : Ctx) (r : String) (u : GoURL) (e : String)
    (h : urlParse c.referer = .error e) :
    extractRelative p c r u =
      (p, .error ("error parsing referer URL from req: '" ++ r ++ "': " ++ e)) := by
  unfold extractRelative; rw [h]

/-- Resolver equation: a referer without a host is a resolution error,
with the state untouched. -/
theorem extractRelative_nohost (p : PC μ ρ) (c : Ctx) (r : String) (u ru : GoURL)
    (h : urlParse c.referer = .ok ru) (hh : ru.host = "") :
    extractRelative p c r u =
      (p, .error ("error parsing referer URL from req: '" ++ r ++ "': <nil>")) := by
  unfold extractRelative; rw [h]; exact if_pos hh

/-- Unfolding equation for `SetCtx` over a computed resolution result. -/
theorem SetCtx_eq (p : PC μ ρ) (c : Ctx) (p1 : PC μ ρ) (r : Except String Unit)
    (h : extractUrl { p with ctx := some c } = (p1, r)) :
    SetCtx p c = SetCtxFinish p1 r := by
  unfold SetCtx; rw [h]

/-- Finish equation for `SetCtx`: when the abort of a resolution error
panics, the panic propagates and the error assignment never happens. -/
theorem SetCtxFinish_err_panic (p1 : PC μ ρ) (e : String) (p2 : PC μ ρ)
    (effs : List (Eff μ ρ)) (pan : GoPanic) (h : abort p1 e = (p2, effs, .error pan)) :
    SetCtxFinish p1 (.error e) = (p2, effs, .error pan) := by
  have h0 : SetCtxFinish p1 (.error e) =
      (match abort p1 e with
       | (p2, effs, .ok enriched) => ({ p2 with _abort_err := some enriched }, effs, .ok ())
       | (p2, effs, .error pan) => (p2, effs, .error pan)) := rfl
  rw [h0, h]

/-- Finish equation for `SetCtx`: when the abort of a resolution error
completes, its enriched error is cached (after the abort's own reset). -/
theorem SetCtxFinish_err_ok (p1 : PC μ ρ) (e : String) (p2 : PC μ ρ)
    (effs : List (Eff μ ρ)) (enr : String) (h : abort p1 e = (p2, effs, .ok enr)) :
    SetCtxFinish p1 (.error e) = ({ p2 with _abort_err := some enr }, effs, .ok ()) := by
  have h0 : SetCtxFinish p1 (.error e) =
      (match abort p1 e with
       | (p2, effs, .ok enriched) => ({ p2 with _abort_err := some enriched }, effs, .ok ())
       | (p2, effs, .error pan) => (p2, effs, .error pan)) := rfl
  rw [h0, h]

/-- Handler equation: a panicking `SetCtx` means `Execute` never runs. -/
theorem handle_panic_eq (env : Env μ ρ) (p : PC μ ρ) (c : Ctx) (p1 : PC μ ρ)
    (effs : List (Eff μ ρ)) (pan : GoPanic) (h : SetCtx p c = (p1, effs, .error pan)) :
    handle env p c = (p1, effs, .error pan) := by
  unfold handle; rw [h]

/-- Handler equation: after a non-panicking `SetCtx`, `Execute` runs on
the bound state and the effect traces concatenate. -/
theorem handle_ok_eq (env : Env μ ρ) (p : PC μ ρ) (c : Ctx) (p1 : PC μ ρ)
    (effs : List (Eff μ ρ)) (h : SetCtx p c = (p1, effs, .ok ())) :
    handle env p c =
      ((Execute env p1).1, effs ++ (Execute env p1).2.1, (Execute env p1).2.2) := by
  unfold handle; rw [h]

/-- Every branch of the exchange clears the per-exchange fields (the
deferred reset runs on the success, error, and panic paths alike). -/
theorem Execute_cleared (env : Env μ ρ) (p : PC μ ρ) :
    perExchangeCleared (Execute env p).1 := by
  unfold Execute
  rw [ExecuteFinish_fst]
  exact reset_cleared _

/-- The exchange leaves the configuration fields as the modifier phases
left them; with configuration-preserving modifiers, unchanged. -/
theorem Execute_configPreserved (env : Env μ ρ)
    (hreq : ∀ m q, configPreserved q (env.runReq m q).1)
    (hres : ∀ m q, configPreserved q (env.runRes m q).1)
    (p : PC μ ρ) : configPreserved p (Execute env p).1 := by
  have h0 := _execute_configPreserved env hreq hres p
  unfold Execute
  rw [ExecuteFinish_fst]
  exact configPreserved_trans h0 (reset_configPreserved _)

/-- The structured-response entry point is the raw one, verbatim. -/
theorem ExecuteAPIContent_eq_Execute (env : Env μ ρ) (p : PC μ ρ) :
    ExecuteAPIContent env p = Execute env p := rfl

/-- When the pipeline body ends in an abort step, the exchange never
reports success to the caller. -/
theorem Execute_abortStep_not_ok_none (env : Env μ ρ) (p p1 : PC μ ρ) (err : String)
    (effs : List (Eff μ ρ)) (h : _execute env p = abortStep p1 err effs) :
    (Execute env p).2.2 ≠ .ok none := by
  have hno := abortStep_not_ok p1 err effs
  unfold Execute
  rw [h]
  rcases habs : abortStep p1 err effs with ⟨p2, aeffs, r⟩
  rw [habs] at hno
  rcases r with pan | res
  · simp [ExecuteFinish_panic]
  · rcases res with e | uu
    · simp [ExecuteFinish_err]
    · cases uu; exact absurd rfl hno

/-! ## Claim theorems -/

/-- C1: the claim says that for a relative capture whose referer embeds an
absolute URL, `extractUrl` succeeds with the reconstructed target. On the
spec's own scenario (capture `/images/pic.png`, referer
`https://proxyhost/https://example.com/page`) the source computes the
intended target `https://example.com/images/pic.png` into `p.URL` but then
re-tests the *capture's* scheme (empty on this branch, line 270 of
`proxychain.go`) instead of the recovered URL's scheme, and therefore
always returns the `failed to extract url from relative path` error. -/
theorem C1_relative_capture_reconstruction_always_errors :
    extractUrl { pcFresh with ctx := some ctxRelGood } =
      ({ pcFresh with ctx := some ctxRelGood, url := some urlPicReconstructed },
       .error "ProxyChain failed to extract url from relative path: '/images/pic.png'") := by
  decide

/-- C2: the claim says modifiers appended mid-iteration via `AddReqMods`
run in the same pass before dispatch. The Go loop ranges over the slice
snapshot taken at loop entry, so the appended modifier (tag `1`, appended
by the self-expanding tag `0`, as `RequestArchiveIs` appends
`ResolveWithGoogleDoH`) is recorded in the list but never runs during the
exchange in which it was appended, even though the dispatch happens. -/
theorem C2_appended_modifier_not_run_in_same_pass :
    (handle envGrow { pcFresh with reqMods := [0] } ctxAbs).1.reqMods = [0, 1] ∧
    Eff.ranReqMod 1 ∉ (handle envGrow { pcFresh with reqMods := [0] } ctxAbs).2.1 ∧
    Eff.dispatch ∈ (handle envGrow { pcFresh with reqMods := [0] } ctxAbs).2.1 := by
  decide

/-- C3: the claim says `Execute` on an orchestrator whose `SetCtx` failed
short-circuits and re-reports the cached resolution error as a 500
response. In the source, the `abort` performed inside `SetCtx` runs its
deferred `_reset`, clearing `p.Ctx`; the subsequent `Execute` then enters
`_validate_ctx_is_set`, which calls `abort` again — and `abort`
dereferences the now-nil `p.Ctx` (`p.Ctx.Response()`), a panic, before the
cached `_abort_err` check on line 152 is ever reached. Nothing is
re-reported: the effect trace of `Execute` is empty. -/
theorem C3_execute_after_failed_setctx_panics :
    ((SetCtx pcFresh ctxRelX).1._abort_err).isSome = true ∧
    (SetCtx pcFresh ctxRelX).1.ctx = none ∧
    Execute envId (SetCtx pcFresh ctxRelX).1 =
      (_reset (SetCtx pcFresh ctxRelX).1, [], .error .nilCtx) := by
  decide

/-- C9: the claim says every aborted exchange yields a 500 response whose
body is `ProxyChain error for '<url>': <cause>`. When resolution fails
before any URL was stored (here: relative capture `images/pic.png` with no
referer), `abort` sets the 500 status and then dereferences the nil
`p.URL` in `p.URL.String()` — a panic. No body is ever sent. -/
theorem C9_abort_with_nil_url_panics_before_sending_body :
    (SetCtx pcFresh ctxNoRef).2.1 = [Eff.setStatus 500] ∧
    (SetCtx pcFresh ctxNoRef).2.2 = (.error .nilURL : Except GoPanic Unit) := by
  decide

/-- C10: modifiers appended to `reqMods` during an exchange survive the
post-exchange `_reset` (which clears only the per-exchange fields) and
`SetCtx` (which never touches the lists), so they run in every subsequent
exchange, and reuse with a self-expanding modifier grows the list each
exchange: concretely, two successive exchanges with the
`RequestArchiveIs`-style tag `0` take the list from `[0]` to `[0, 1]` to
`[0, 1, 1]`, and the modifier appended in the first exchange runs in the
second. -/
theorem C10_appended_modifiers_persist_and_grow :
    (∀ (μ ρ : Type) (q : PC μ ρ),
        (_reset q).reqMods = q.reqMods ∧ (_reset q).resMods = q.resMods) ∧
    ((handle envGrow { pcFresh with reqMods := [0] } ctxAbs).1.reqMods = [0, 1] ∧
     Eff.ranReqMod 1 ∉ (handle envGrow { pcFresh with reqMods := [0] } ctxAbs).2.1 ∧
     (handle envGrow (handle envGrow { pcFresh with reqMods := [0] } ctxAbs).1 ctxAbs).1.reqMods
       = [0, 1, 1] ∧
     Eff.ranReqMod 1 ∈
       (handle envGrow (handle envGrow { pcFresh with reqMods := [0] } ctxAbs).1 ctxAbs).2.1) := by
  refine ⟨fun μ ρ q => ⟨rfl, rfl⟩, ?_⟩
  decide

/-- C4: when a request modifier fails, the modifiers actually run are
exactly the snapshot prefix through the failing one (none after it), and
the exchange's effect trace holds neither a dispatch nor a
response-modifier run: the upstream is never contacted and no response
modifier ever executes. -/
theorem C4_failed_modifier_short_circuits (env : Env μ ρ) (p : PC μ ρ) (c : Ctx) (u : GoURL)
    (hab : p._abort_err = none) (hctx : p.ctx = some c)
    (hurl : p.url = some u) (hs : ¬ u.scheme = "")
    (p1 : PC μ ρ) (ran : List μ) (err : String)
    (hfail : runReqMods env p.reqMods p = (p1, ran, some err)) :
    (∃ k, k < p.reqMods.length ∧ ran = p.reqMods.take (k + 1)) ∧
    ((Execute env p).2.1.all fun e => !e.isDispatch && !e.isRanResMod) = true := by
  refine ⟨runReqMods_error_ran_upto env _ _ _ _ _ hfail, ?_⟩
  have hex : _execute env p = abortStep p1 err (ran.map Eff.ranReqMod) := by
    rw [_execute_ctx_some env p c hctx, _execCheckAbort_none env p hab,
        _execCheckURL_ok env p u hurl hs, _runPhase_fail env p p1 ran err hfail]
  have heffs : (Execute env p).2.1 = (abortStep p1 err (ran.map Eff.ranReqMod)).2.1 := by
    unfold Execute
    rw [hex]
    exact ExecuteFinish_effs_of_not_ok _ _ _ (abortStep_not_ok p1 err _)
  rw [heffs, abortStep_effs, List.all_append]
  refine (Bool.and_eq_true _ _).mpr ⟨?_, abort_effs_benign p1 err⟩
  rw [List.all_eq_true]
  intro e he
  obtain ⟨m, _, rfl⟩ := List.mem_map.mp he
  rfl

/-- Witness for C4: environment `envFail` fails its single modifier. -/
theorem C4_witness :
    (∃ k, k < pReady.reqMods.length ∧ [0] = pReady.reqMods.take (k + 1)) ∧
    ((Execute envFail pReady).2.1.all fun e => !e.isDispatch && !e.isRanResMod) = true :=
  C4_failed_modifier_short_circuits envFail pReady ctxAbs urlStory rfl rfl rfl
    (by decide) pReady [0] "boom" (by decide)

/-- C5 counterexample: with a self-expanding request modifier in the list
(the `RequestArchiveIs` pattern), the request-modifier list after
`Execute` differs from the one before, so the claim's "request-modifier
list ... unchanged" fails as stated. -/
theorem C5_counterexample_self_expanding_modifier :
    (Execute envGrow pReady).1.reqMods ≠ pReady.reqMods := by
  decide

/-- C5 (amended): after every `Execute` or `ExecuteAPIContent`, succeeded
or aborted, all per-exchange owned state (ctx, URL, outbound request,
upstream response, buffered body, cached abort error) is cleared; the
modifier lists, client, ruleset and verbosity are never touched by the
orchestrator itself, so they are unchanged whenever every modifier
preserves them — a modifier that mutates them (e.g. via `AddReqMods`)
makes the change and it persists. -/
theorem C5_per_exchange_cleared_config_untouched (env : Env μ ρ) (p : PC μ ρ)
    (hreq : ∀ m q, configPreserved q (env.runReq m q).1)
    (hres : ∀ m q, configPreserved q (env.runRes m q).1) :
    (∀ (env2 : Env μ ρ) (q : PC μ ρ),
        perExchangeCleared (Execute env2 q).1 ∧
        perExchangeCleared (ExecuteAPIContent env2 q).1) ∧
    configPreserved p (Execute env p).1 ∧
    configPreserved p (ExecuteAPIContent env p).1 := by
  refine ⟨fun env2 q => ?_, ?_, ?_⟩
  · rw [ExecuteAPIContent_eq_Execute]
    exact ⟨Execute_cleared env2 q, Execute_cleared env2 q⟩
  · exact Execute_configPreserved env hreq hres p
  · rw [ExecuteAPIContent_eq_Execute]
    exact Execute_configPreserved env hreq hres p

/-- Witness for the amended C5 with no-op modifiers. -/
theorem C5_amended_witness :
    (∀ (env2 : Env Nat Nat) (q : PC Nat Nat),
        perExchangeCleared (Execute env2 q).1 ∧
        perExchangeCleared (ExecuteAPIContent env2 q).1) ∧
    configPreserved pReady (Execute envId pReady).1 ∧
    configPreserved pReady (ExecuteAPIContent envId pReady).1 :=
  C5_per_exchange_cleared_config_untouched envId pReady
    (fun _ q => configPreserved_refl q) (fun _ q => configPreserved_refl q)

/-- C6: a capture whose decoded (or raw, on a decode failure) value parses
with a non-empty scheme is stored as the target exactly as parsed, and
resolution succeeds. -/
theorem C6_absolute_capture_used_verbatim (p : PC μ ρ) (c : Ctx) (u : GoURL)
    (hctx : p.ctx = some c)
    (hparse : urlParse (decodeOrRaw c.param) = .ok u)
    (hs : ¬ u.scheme = "") :
    extractUrl p = ({ p with url := some u }, .ok ()) := by
  rw [extractUrl_some p c hctx, hparse, extractUrlParsed_abs p c _ u hs]

/-- Witness for C6 on the spec's absolute scenario. -/
theorem C6_witness :
    extractUrl pAbsCtx = ({ pAbsCtx with url := some urlStory }, .ok ()) :=
  C6_absolute_capture_used_verbatim pAbsCtx ctxAbs urlStory rfl (by decide) (by decide)

/-- C7: for a relative capture (parsed scheme empty), an unparseable
referer or one whose parse has an empty host makes the resolver fail with
a resolution error, and the full exchange (`SetCtx` then `Execute`, as the
handler chains them) never dispatches upstream. -/
theorem C7_unusable_referer_fails_no_dispatch (env : Env μ ρ) (p : PC μ ρ) (c : Ctx) (u : GoURL)
    (hparse : urlParse (decodeOrRaw c.param) = .ok u) (hs : u.scheme = "")
    (href : (∃ e, urlParse c.referer = .error e) ∨
            (∃ ru, urlParse c.referer = .ok ru ∧ ru.host = "")) :
    (∃ msg, (extractUrl { p with ctx := some c }).2 = .error msg) ∧
    ((handle env p c).2.1.all fun e => !e.isDispatch) = true := by
  have hcx : ({ p with ctx := some c } : PC μ ρ).ctx = some c := rfl
  obtain ⟨msg, hex⟩ :
      ∃ msg, extractUrl ({ p with ctx := some c } : PC μ ρ) =
        ({ p with ctx := some c }, .error msg) := by
    rcases href with ⟨e, he⟩ | ⟨ru, hok, hh⟩
    · exact ⟨_, by rw [extractUrl_some _ c hcx, hparse, extractUrlParsed_rel _ c _ u hs,
        extractRelative_err _ c _ u e he]⟩
    · exact ⟨_, by rw [extractUrl_some _ c hcx, hparse, extractUrlParsed_rel _ c _ u hs,
        extractRelative_nohost _ c _ u ru hok hh]⟩
  refine ⟨⟨msg, by rw [hex]⟩, ?_⟩
  have hsc : SetCtx p c = SetCtxFinish { p with ctx := some c } (.error msg) :=
    SetCtx_eq p c _ _ hex
  rcases hu : p.url with _ | u'
  · have hu' : ({ p with ctx := some c } : PC μ ρ).url = none := hu
    have hab := abort_nilURLEq ({ p with ctx := some c } : PC μ ρ) msg c hcx hu'
    have hsc2 : SetCtx p c =
        (_reset { p with ctx := some c }, [Eff.setStatus 500], .error .nilURL) := by
      rw [hsc]; exact SetCtxFinish_err_panic _ msg _ _ _ hab
    rw [handle_panic_eq env p c _ _ _ hsc2]; rfl
  · have hu' : ({ p with ctx := some c } : PC μ ρ).url = some u' := hu
    have hab := abort_okEq ({ p with ctx := some c } : PC μ ρ) msg c u' hcx hu'
    have hsc2 : SetCtx p c =
        ({ _reset { p with ctx := some c } with
            _abort_err := some ("ProxyChain error for '" ++ urlString u' ++ "': " ++ msg) },
         [Eff.setStatus 500,
          Eff.send ("ProxyChain error for '" ++ urlString u' ++ "': " ++ msg),
          Eff.log ("ProxyChain error for '" ++ urlString u' ++ "': " ++ msg)],
         .ok ()) := by
      rw [hsc]; exact SetCtxFinish_err_ok _ msg _ _ _ hab
    have hexe := _execute_ctx_none env
      ({ _reset { p with ctx := some c } with
          _abort_err := some ("ProxyChain error for '" ++ urlString u' ++ "': " ++ msg) } : PC μ ρ)
      rfl
    have hEx21 : (Execute env
        ({ _reset { p with ctx := some c } with
            _abort_err := some ("ProxyChain error for '" ++ urlString u' ++ "': " ++ msg) } : PC μ ρ)).2.1
        = [] := by
      rw [Execute_eq env _ _ _ _ hexe]; rfl
    rw [handle_ok_eq env p c _ _ hsc2, hEx21]
    rfl

/-- Witness for C7: relative capture `images/pic.png` with an empty
referer (which parses, but with an empty host). -/
theorem C7_witness :
    (∃ msg, (extractUrl { pcFresh with ctx := some ctxNoRef }).2 = .error msg) ∧
    ((handle envId pcFresh ctxNoRef).2.1.all fun e => !e.isDispatch) = true :=
  C7_unusable_referer_fails_no_dispatch envId pcFresh ctxNoRef urlRelPic (by decide) rfl
    (.inr ⟨{}, by decide, rfl⟩)

/-- C8: when the response-modifier chain that runs is empty, the body the
caller receives is, byte for byte, the buffered upstream body: the final
send effect carries exactly the buffered bytes. -/
theorem C8_empty_reschain_returns_buffered_body (env : Env μ ρ) (p : PC μ ρ)
    (hres : (runReqMods env p.reqMods p).1.resMods = [])
    (hok : (Execute env p).2.2 = .ok none) :
    ∃ b pre, (Execute env p).2.1 = pre ++ [Eff.send b] ∧ Eff.buffered b ∈ pre := by
  rcases hc : p.ctx with _ | c
  · rw [Execute_eq env p _ _ _ (_execute_ctx_none env p hc)] at hok
    exact absurd hok (by simp [ExecuteFinish_panic])
  · rcases hab : p._abort_err with _ | e
    · rcases hu : p.url with _ | u
      · rw [Execute_eq env p _ _ _
          ((_execute_ctx_some env p c hc).trans ((_execCheckAbort_none env p hab).trans
            (_execCheckURL_none env p hu)))] at hok
        exact absurd hok (by simp [ExecuteFinish_panic])
      · by_cases hsch : u.scheme = ""
        · rw [Execute_eq env p _ _ _
            ((_execute_ctx_some env p c hc).trans ((_execCheckAbort_none env p hab).trans
              (_execCheckURL_empty env p u hu hsch)))] at hok
          exact absurd hok (by simp [ExecuteFinish_err])
        · have hstage : _execute env p = _runPhase env p :=
            (_execute_ctx_some env p c hc).trans ((_execCheckAbort_none env p hab).trans
              (_execCheckURL_ok env p u hu hsch))
          rcases hloop : runReqMods env p.reqMods p with ⟨p1, ran, res⟩
          rw [hloop] at hres
          rcases res with _ | err
          · have hrun := _runPhase_ok env p p1 ran hloop
            rcases hd : env.dispatch p1 with e | ⟨r, e⟩ | ⟨r, b⟩
            · have : _execute env p = abortStep p1 e (ran.map Eff.ranReqMod ++ [Eff.dispatch]) := by
                rw [hstage, hrun]; unfold _dispatchPhase; rw [hd]
              exact absurd hok (Execute_abortStep_not_ok_none env p _ _ _ this)
            · have : _execute env p =
                  abortStep { p1 with resp := some r } e (ran.map Eff.ranReqMod ++ [Eff.dispatch]) := by
                rw [hstage, hrun]; unfold _dispatchPhase; rw [hd]
              exact absurd hok (Execute_abortStep_not_ok_none env p _ _ _ this)
            · have hresp : ({ p1 with resp := some r, body := some b } : PC μ ρ).resMods = [] := hres
              have hfin : _execute env p =
                  ({ p1 with resp := some r, body := some b },
                   (ran.map Eff.ranReqMod ++ [Eff.dispatch] ++ [Eff.buffered b]) ++ [],
                   .ok (.ok ())) := by
                rw [hstage, hrun]
                have hdp := _dispatchPhase_ok env p1 (ran.map Eff.ranReqMod ++ [Eff.dispatch]) r b hd
                rw [hdp]
                exact _responsePhase_empty env _ _ hresp
              rcases hc1 : p1.ctx with _ | c1
              · have : ({ p1 with resp := some r, body := some b } : PC μ ρ).ctx = none := hc1
                rw [Execute_eq env p _ _ _ hfin, ExecuteFinish_ok_nilctx _ _ this] at hok
                exact absurd hok (by simp)
              · have hcs : ({ p1 with resp := some r, body := some b } : PC μ ρ).ctx = some c1 := hc1
                have hbody : ({ p1 with resp := some r, body := some b } : PC μ ρ).body.getD "" = b := rfl
                refine ⟨b, ran.map Eff.ranReqMod ++ [Eff.dispatch] ++ [Eff.buffered b], ?_, ?_⟩
                · rw [Execute_eq env p _ _ _ hfin, ExecuteFinish_ok_send _ _ c1 hcs, hbody]
                  simp
                · simp
          · have : _execute env p = abortStep p1 err (ran.map Eff.ranReqMod) := by
              rw [hstage]; exact _runPhase_fail env p p1 ran err hloop
            exact absurd hok (Execute_abortStep_not_ok_none env p _ _ _ this)
    · rw [Execute_eq env p _ _ _
        ((_execute_ctx_some env p c hc).trans (_execCheckAbort_some env p e hab))] at hok
      exact absurd hok (by simp [ExecuteFinish_err])

/-- Witness for C8: no-op modifier environment, empty response chain. -/
theorem C8_witness :
    ∃ b pre, (Execute envId pReady).2.1 = pre ++ [Eff.send b] ∧ Eff.buffered b ∈ pre :=
  C8_empty_reschain_returns_buffered_body envId pReady (by decide) (by decide)

end Ladder
